import Mathlib

/-!
Verification development for the SharkBand loyalty-card backend.

The definitions below are a shallow embedding of the TypeScript backend:
the in-memory `DataStore` (src/data/store.ts), the check-in route handler
(src/routes/checkins.ts), the wallet/card handlers (src/routes/cards.ts),
the registration handler (src/routes/auth.ts) and the analytics handlers
(src/routes/analytics.ts).

Modelling conventions:
- JavaScript `Date` values are modelled as `Nat` milliseconds since the
  epoch, with the server clock in UTC.  Every `new Date()` executed by a
  handler is an explicit argument of the embedded function, in the order
  the source reads the clock.
- A JavaScript `Map` is modelled as a list in insertion order; `Map.set`
  replaces the first entry with the same key in place and appends a new
  key at the end, `Map.delete` removes the entry, matching the iteration
  semantics of JS maps.
- JavaScript number arithmetic in the analytics handlers is modelled as
  exact rational arithmetic; `Math.round` rounds half toward positive
  infinity, which is Mathlib's `round` on `ℚ`.
- Fields that no claim depends on (passwords, logos, descriptions, free
  form metadata, locations) are omitted from the records.
-/

set_option maxHeartbeats 1000000

namespace SBD

/-- Account role, from the `role` field of `User` in src/types.ts. -/
inductive Role where
  | user
  | admin
  | business
deriving DecidableEq

/-- User record (src/types.ts `User`), timestamps in epoch milliseconds. -/
structure User where
  id : String
  email : String
  name : String
  role : Role
  points : Nat
  createdAt : Nat
  updatedAt : Nat
deriving DecidableEq

/-- Loyalty card record (src/types.ts `Card`). -/
structure Card where
  id : String
  businessId : String
  name : String
  isActive : Bool
  createdAt : Nat
  updatedAt : Nat
deriving DecidableEq

/-- Wallet membership record (src/types.ts `UserCard`). -/
structure UserCard where
  id : String
  userId : String
  cardId : String
  addedAt : Nat
  lastCheckIn : Option Nat
deriving DecidableEq

/-- Check-in event record (src/types.ts `CheckIn`). -/
structure CheckIn where
  id : String
  userId : String
  cardId : String
  businessId : String
  pointsEarned : Nat
  timestamp : Nat
deriving DecidableEq

/-- Business record (src/types.ts `Business`). -/
structure Business where
  id : String
  name : String
  ownerId : String
  createdAt : Nat
  updatedAt : Nat
deriving DecidableEq

/-- The whole in-memory `DataStore` (src/data/store.ts): each JS `Map`
    becomes a list in insertion order, `checkIns` is the plain array. -/
structure Store where
  users : List User
  cards : List Card
  userCards : List UserCard
  checkIns : List CheckIn
  businesses : List Business
deriving DecidableEq

/-- The key string of the `userCards` map: the template literal
    `${userId}-${cardId}` used by `DataStore`. -/
def walletKey (userId cardId : String) : String :=
  userId ++ "-" ++ cardId

/-- JS `Map.set` on an insertion-ordered map with key function `key`:
    replace the entry with the same key in place, otherwise append at
    the end. -/
def mapSet {α : Type} (key : α → String) : List α → α → List α
  | [], a => [a]
  | v :: vs, a => if key v = key a then a :: vs else v :: mapSet key vs a

/-- Key of the `users` map: `user.id`. -/
def userKey (u : User) : String := u.id

/-- Key of the `cards` map: `card.id`. -/
def cardKey (c : Card) : String := c.id

/-- Key of the `userCards` map: the template literal
    `${userId}-${cardId}`. -/
def userCardKey (uc : UserCard) : String := walletKey uc.userId uc.cardId

/-- `DataStore.getUserById`. -/
def getUserById (s : Store) (id : String) : Option User :=
  s.users.find? (fun u => u.id == id)

/-- `DataStore.getUserByEmail`. -/
def getUserByEmail (s : Store) (email : String) : Option User :=
  s.users.find? (fun u => u.email == email)

/-- `DataStore.getAllUsers`: the map values in insertion order. -/
def getAllUsers (s : Store) : List User :=
  s.users

/-- `DataStore.createUser`. -/
def createUser (s : Store) (u : User) : Store :=
  { s with users := mapSet userKey s.users u }

/-- The `Partial<User>` update objects that the routes actually pass to
    `DataStore.updateUser`; `none` means the field is absent. -/
structure UserUpdate where
  email : Option String := none
  name : Option String := none
  points : Option Nat := none
deriving DecidableEq

/-- The object spread `{ ...user, ...updates, updatedAt: new Date() }`
    performed by `DataStore.updateUser`; `t` is that `new Date()`. -/
def applyUserUpdate (u : User) (up : UserUpdate) (t : Nat) : User :=
  { u with
    email := up.email.getD u.email
    name := up.name.getD u.name
    points := up.points.getD u.points
    updatedAt := t }

/-- `DataStore.updateUser`: `undefined` (here `none`) when the id is
    unknown, otherwise the merged record is stored and returned. -/
def updateUser (s : Store) (id : String) (up : UserUpdate) (t : Nat) :
    Option User × Store :=
  match getUserById s id with
  | none => (none, s)
  | some u =>
      let updated := applyUserUpdate u up t
      (some updated, { s with users := mapSet userKey s.users updated })

/-- `DataStore.getCardById`. -/
def getCardById (s : Store) (id : String) : Option Card :=
  s.cards.find? (fun c => c.id == id)

/-- `DataStore.getAllCards`. -/
def getAllCards (s : Store) : List Card :=
  s.cards

/-- `DataStore.createCard`. -/
def createCard (s : Store) (c : Card) : Store :=
  { s with cards := mapSet cardKey s.cards c }

/-- The `Partial<Card>` update objects passed to `DataStore.updateCard`
    by the PUT /cards/:id handler. -/
structure CardUpdate where
  name : Option String := none
  isActive : Option Bool := none
deriving DecidableEq

/-- The spread `{ ...card, ...updates, updatedAt: new Date() }` performed
    by `DataStore.updateCard`. -/
def applyCardUpdate (c : Card) (up : CardUpdate) (t : Nat) : Card :=
  { c with
    name := up.name.getD c.name
    isActive := up.isActive.getD c.isActive
    updatedAt := t }

/-- `DataStore.updateCard`. -/
def updateCard (s : Store) (id : String) (up : CardUpdate) (t : Nat) :
    Option Card × Store :=
  match getCardById s id with
  | none => (none, s)
  | some c =>
      let updated := applyCardUpdate c up t
      (some updated, { s with cards := mapSet cardKey s.cards updated })

/-- `DataStore.deleteCard`: JS `Map.delete` on the cards map. -/
def deleteCard (s : Store) (id : String) : Store :=
  { s with cards := s.cards.filter (fun c => !(c.id == id)) }

/-- `DataStore.getUserCard`: lookup in the userCards map under the key
    `${userId}-${cardId}`. -/
def getUserCard (s : Store) (userId cardId : String) : Option UserCard :=
  s.userCards.find?
    (fun uc => walletKey uc.userId uc.cardId == walletKey userId cardId)

/-- `DataStore.addCardToUser`. -/
def addCardToUser (s : Store) (uc : UserCard) : Store :=
  { s with userCards := mapSet userCardKey s.userCards uc }

/-- The `Partial<UserCard>` update objects passed to
    `DataStore.updateUserCard` (the check-in route passes only
    `lastCheckIn`); `none` means the field is absent. -/
structure UserCardUpdate where
  lastCheckIn : Option Nat := none
deriving DecidableEq

/-- The spread `{ ...userCard, ...updates }` performed by
    `DataStore.updateUserCard` (note: no `updatedAt` refresh here). -/
def applyUserCardUpdate (uc : UserCard) (up : UserCardUpdate) : UserCard :=
  { uc with
    lastCheckIn :=
      (match up.lastCheckIn with
        | some v => some v
        | none => uc.lastCheckIn) }

/-- `DataStore.updateUserCard`. -/
def updateUserCard (s : Store) (userId cardId : String) (up : UserCardUpdate) :
    Option UserCard × Store :=
  match getUserCard s userId cardId with
  | none => (none, s)
  | some uc =>
      let updated := applyUserCardUpdate uc up
      (some updated, { s with userCards := mapSet userCardKey s.userCards updated })

/-- `DataStore.removeCardFromUser`: JS `Map.delete` under the wallet key. -/
def removeCardFromUser (s : Store) (userId cardId : String) : Store :=
  let remaining := s.userCards.filter
    (fun uc => !(walletKey uc.userId uc.cardId == walletKey userId cardId))
  { s with userCards := remaining }

/-- `DataStore.createCheckIn`: `this.checkIns.push(checkIn)`. -/
def createCheckIn (s : Store) (ci : CheckIn) : Store :=
  { s with checkIns := s.checkIns ++ [ci] }

/-- `DataStore.getCheckInsByUserId`. -/
def getCheckInsByUserId (s : Store) (userId : String) : List CheckIn :=
  s.checkIns.filter (fun ci => ci.userId == userId)

/-- `DataStore.getCheckInsByCardId`. -/
def getCheckInsByCardId (s : Store) (cardId : String) : List CheckIn :=
  s.checkIns.filter (fun ci => ci.cardId == cardId)

/-- `DataStore.getAllCheckIns`. -/
def getAllCheckIns (s : Store) : List CheckIn :=
  s.checkIns

/-- `DataStore.getCheckInsInDateRange` (inclusive bounds). -/
def getCheckInsInDateRange (s : Store) (startDate endDate : Nat) : List CheckIn :=
  s.checkIns.filter
    (fun ci => decide (startDate ≤ ci.timestamp ∧ ci.timestamp ≤ endDate))

/-- `DataStore.createBusiness`. -/
def createBusiness (s : Store) (b : Business) : Store :=
  { s with businesses := s.businesses ++ [b] }

/-- One mock card of `DataStore.initializeMockData`; `t0` is the boot
    time at which the constructor runs. -/
def mockCard (id name : String) (t0 : Nat) : Card :=
  { id := id, businessId := "business-1", name := name, isActive := true,
    createdAt := t0, updatedAt := t0 }

/-- The store produced by the `DataStore` constructor
    (`initializeMockData`): one demo business and three active demo
    cards, no users, wallet entries or check-ins. -/
def initialStore (t0 : Nat) : Store :=
  { users := []
    cards := [mockCard "card-1" "Coffee Loyalty Card" t0,
              mockCard "card-2" "Gym Membership" t0,
              mockCard "card-3" "VIP Access Pass" t0]
    userCards := []
    checkIns := []
    businesses := [{ id := "business-1", name := "SharkBand Demo Business",
                     ownerId := "admin-1", createdAt := t0, updatedAt := t0 }] }

/-! ### Route handlers (the check-in orchestrator and its collaborators) -/

/-- The points policy `calculatePoints` of src/routes/checkins.ts: the
    fixed base value 10, a pure function of its arguments. -/
def calculatePoints (cardId userId : String) : Nat :=
  let basePoints := 10
  basePoints

/-- Outcome of the POST /checkins handler, one constructor per exit of
    the route (HTTP statuses 404/400/400/404/201 in source order). -/
inductive CheckInResult where
  | cardNotFound
  | cardInactive
  | notInWallet
  | userNotFound
  | success (totalPoints : Nat)
deriving DecidableEq

/-- The POST /checkins handler of src/routes/checkins.ts, after body
    validation and authentication.  `t1` is the `new Date()` stored in
    the check-in record, `t2` the one taken inside `DataStore.updateUser`
    and `t3` the one passed as `lastCheckIn` to
    `DataStore.updateUserCard`, in the order the source reads the clock.
    Note the event is appended before the user record is looked up. -/
def recordCheckIn (s : Store) (ciId userId cardId : String) (t1 t2 t3 : Nat) :
    CheckInResult × Store :=
  match getCardById s cardId with
  | none => (.cardNotFound, s)
  | some card =>
    if !card.isActive then (.cardInactive, s)
    else
      match getUserCard s userId cardId with
      | none => (.notInWallet, s)
      | some _ =>
        let pointsEarned := calculatePoints cardId userId
        let ci : CheckIn :=
          { id := ciId, userId := userId, cardId := cardId,
            businessId := card.businessId, pointsEarned := pointsEarned,
            timestamp := t1 }
        let s1 := createCheckIn s ci
        match getUserById s1 userId with
        | none => (.userNotFound, s1)
        | some user =>
          let newPoints := user.points + pointsEarned
          let s2 := (updateUser s1 userId { points := some newPoints } t2).2
          let s3 := (updateUserCard s2 userId cardId { lastCheckIn := some t3 }).2
          (.success newPoints, s3)

/-- The POST /auth/register handler of src/routes/auth.ts, after body
    validation: reject a duplicate email, otherwise create the user with
    `points := 0`; `id` is the generated uuid and `t` the creation time
    (`createdAt` and `updatedAt` are both read at creation). -/
def registerUser (s : Store) (id email name : String) (role : Role) (t : Nat) :
    Option User × Store :=
  match getUserByEmail s email with
  | some _ => (none, s)
  | none =>
      let u : User :=
        { id := id, email := email, name := name, role := role,
          points := 0, createdAt := t, updatedAt := t }
      (some u, createUser s u)

/-- The POST /cards/:id/add handler of src/routes/cards.ts: card must
    exist and be active, and must not already be in the wallet; the new
    entry has no `lastCheckIn`. -/
def addCardToWallet (s : Store) (ucId userId cardId : String) (t : Nat) :
    Option UserCard × Store :=
  match getCardById s cardId with
  | none => (none, s)
  | some card =>
    if !card.isActive then (none, s)
    else
      match getUserCard s userId cardId with
      | some _ => (none, s)
      | none =>
          let uc : UserCard :=
            { id := ucId, userId := userId, cardId := cardId,
              addedAt := t, lastCheckIn := none }
          (some uc, addCardToUser s uc)

/-- The POST /cards handler: the created card is always active. -/
def createCardHandler (s : Store) (id businessId name : String) (t : Nat) : Store :=
  createCard s
    { id := id, businessId := businessId, name := name, isActive := true,
      createdAt := t, updatedAt := t }

/-! ### Mutating operations and traces -/

/-- One completed mutating API operation of the backend, with the clock
    values each handler reads as explicit fields. -/
inductive Op where
  | register (id email name : String) (role : Role) (t : Nat)
  | createCard (id businessId name : String) (t : Nat)
  | updateCard (id : String) (up : CardUpdate) (t : Nat)
  | deleteCard (id : String)
  | addToWallet (ucId userId cardId : String) (t : Nat)
  | removeFromWallet (userId cardId : String)
  | checkIn (ciId userId cardId : String) (t1 t2 t3 : Nat)
deriving DecidableEq

/-- Effect of one operation on the store. -/
def applyOp (s : Store) : Op → Store
  | .register id email name role t => (registerUser s id email name role t).2
  | .createCard id businessId name t => createCardHandler s id businessId name t
  | .updateCard id up t => (updateCard s id up t).2
  | .deleteCard id => deleteCard s id
  | .addToWallet ucId userId cardId t => (addCardToWallet s ucId userId cardId t).2
  | .removeFromWallet userId cardId => removeCardFromUser s userId cardId
  | .checkIn ciId userId cardId t1 t2 t3 =>
      (recordCheckIn s ciId userId cardId t1 t2 t3).2

/-- Effect of a sequence of completed operations. -/
def applyOps (s : Store) : List Op → Store
  | [] => s
  | op :: ops => applyOps (applyOp s op) ops

/-- A user id is fresh for the store: no account, wallet entry or
    check-in event mentions it.  This models the freshness of the uuids
    generated at registration. -/
def FreshUserId (s : Store) (id : String) : Prop :=
  (∀ u ∈ s.users, u.id ≠ id) ∧ (∀ ci ∈ s.checkIns, ci.userId ≠ id)

/-- Well-formed trace: every registration uses a fresh generated id
    (uuidv4 collisions are assumed impossible). -/
def WfOps (s : Store) : List Op → Prop
  | [] => True
  | op :: ops =>
      (match op with
        | .register id _ _ _ _ => FreshUserId s id
        | _ => True) ∧ WfOps (applyOp s op) ops

/-! ### Analytics handlers (src/routes/analytics.ts)

Timestamps are UTC epoch milliseconds, so the `YYYY-MM-DD` string that
`formatDate` produces is modelled by the day index `t / msPerDay`; the
lexicographic order on the date strings agrees with the numeric order on
day indices.  The comparator passed to `Array.prototype.sort` by the
leaderboard is `(a, b) => b.points - a.points`, and JS `sort` is stable,
which `List.mergeSort` models. -/

/-- Milliseconds per calendar day. -/
def msPerDay : Nat := 86400000

/-- The `formatDate` helper: the UTC calendar day of a timestamp,
    modelled as a day index instead of the `YYYY-MM-DD` string. -/
def formatDate (t : Nat) : Nat :=
  t / msPerDay

/-- The `getDateRange` helper: `start` is midnight `days` days before
    `now`, `end` is the last millisecond of the current day (the local
    clock is modelled as UTC). -/
def getDateRange (now days : Nat) : Nat × Nat :=
  (((now - days * msPerDay) / msPerDay) * msPerDay,
   (now / msPerDay) * msPerDay + (msPerDay - 1))

/-- One row of the leaderboard / topUsers responses. -/
structure LeaderboardEntry where
  userId : String
  userName : String
  userEmail : String
  points : Nat
  rank : Nat
deriving DecidableEq

/-- The comparator `(a, b) => b.points - a.points` passed to
    `Array.prototype.sort`: `a` sorts no later than `b` exactly when
    `b.points ≤ a.points` (descending points). -/
def pointsDesc (a b : User) : Bool :=
  decide (b.points ≤ a.points)

/-- The role-'user' accounts sorted by the stable sort with comparator
    `(a, b) => b.points - a.points` and truncated by `slice(0, limit)`,
    exactly as GET /analytics/leaderboard computes before ranking. -/
def leaderboardUsers (s : Store) (limit : Nat) : List User :=
  (((getAllUsers s).filter (fun u => decide (u.role = Role.user))).mergeSort
    pointsDesc).take limit

/-- GET /analytics/leaderboard: rank is the 1-based position in the
    sorted, truncated list (`rank: index + 1`). -/
def leaderboard (s : Store) (limit : Nat) : List LeaderboardEntry :=
  (leaderboardUsers s limit).mapIdx
    (fun index user =>
      { userId := user.id, userName := user.name, userEmail := user.email,
        points := user.points, rank := index + 1 })

/-- The `topUsers` field of GET /analytics/overview: the same
    computation with `slice(0, 10)`. -/
def overviewTopUsers (s : Store) : List LeaderboardEntry :=
  leaderboard s 10

/-- The `totalUsers` field of GET /analytics/overview. -/
def overviewTotalUsers (s : Store) : Nat :=
  ((getAllUsers s).filter (fun u => decide (u.role = Role.user))).length

/-- The `activeUsers` field of GET /analytics/overview: distinct userIds
    among the check-ins of the trailing 30 days, with no role filter;
    `now` is the captured `new Date()`. -/
def overviewActiveUsers (s : Store) (now : Nat) : Nat :=
  (((getAllCheckIns s).filter
      (fun ci => decide (now - 30 * msPerDay ≤ ci.timestamp))).map
    (fun ci => ci.userId)).dedup.length

/-- The `dailyCheckIns` field of GET /analytics/overview: the loop
    `for (d = start; d <= end; d += 1 day)` over the 30-day range, one
    entry per day with the count looked up in the bucket map (0 when the
    day has no bucket). -/
def overviewDailyCheckIns (s : Store) (now days : Nat) : List (Nat × Nat) :=
  let r := getDateRange now days
  let recent := (getAllCheckIns s).filter
    (fun ci => decide (r.1 ≤ ci.timestamp ∧ ci.timestamp ≤ r.2))
  (List.range ((r.2 - r.1) / msPerDay + 1)).map
    (fun k =>
      (formatDate (r.1 + k * msPerDay),
       (recent.filter
          (fun ci => formatDate ci.timestamp == formatDate (r.1 + k * msPerDay))).length))

/-- One row of GET /analytics/daily: the calendar day and the total
    count for that day (the per-card breakdown `byCard` sums to
    `total` and is not needed by any claim, so it is omitted). -/
def dailyTrend (s : Store) (now days : Nat) : List (Nat × Nat) :=
  let r := getDateRange now days
  let cis := getCheckInsInDateRange s r.1 r.2
  let dates := (cis.map (fun ci => formatDate ci.timestamp)).dedup
  let entries := dates.map
    (fun d => (d, (cis.filter (fun ci => formatDate ci.timestamp == d)).length))
  entries.mergeSort (fun a b => decide (a.1 ≤ b.1))

/-- One row of GET /analytics/cards; `avgCheckInsPerUser` keeps the
    exact rational value of `Math.round(avg * 10) / 10`. -/
structure CardStats where
  cardId : String
  totalCheckIns : Nat
  uniqueUsers : Nat
  avgCheckInsPerUser : ℚ
  last7Days : Nat
  totalPointsEarned : Nat
deriving DecidableEq

/-- GET /analytics/cards: per-card statistics over all check-ins; `now`
    is the `new Date()` used for the trailing 7-day window. -/
def cardAnalytics (s : Store) (now : Nat) : List CardStats :=
  (getAllCards s).map
    (fun card =>
      let cardCheckIns := (getAllCheckIns s).filter (fun ci => ci.cardId == card.id)
      let uniqueUsers := (cardCheckIns.map (fun ci => ci.userId)).dedup.length
      let avg : ℚ :=
        if uniqueUsers > 0 then (cardCheckIns.length : ℚ) / (uniqueUsers : ℚ) else 0
      let sevenDaysAgo := now - 7 * msPerDay
      { cardId := card.id,
        totalCheckIns := cardCheckIns.length,
        uniqueUsers := uniqueUsers,
        avgCheckInsPerUser := (round (avg * 10) : ℚ) / 10,
        last7Days :=
          (cardCheckIns.filter (fun ci => decide (sevenDaysAgo ≤ ci.timestamp))).length,
        totalPointsEarned := (cardCheckIns.map (fun ci => ci.pointsEarned)).sum })

/-- Response of GET /analytics/user-activity. -/
structure UserActivity where
  totalUsers : Nat
  usersWithCheckIns : Nat
  activeLastWeek : Nat
  activeLastMonth : Nat
  avgCheckInsPerUser : ℚ
deriving DecidableEq

/-- GET /analytics/user-activity: `totalUsers` and the average are
    computed over role-'user' accounts, but the three activity counts
    are distinct userIds taken straight from the check-in events. -/
def userActivity (s : Store) (now : Nat) : UserActivity :=
  let users := (getAllUsers s).filter (fun u => decide (u.role = Role.user))
  let allCheckIns := getAllCheckIns s
  { totalUsers := users.length,
    usersWithCheckIns := (allCheckIns.map (fun ci => ci.userId)).dedup.length,
    activeLastWeek :=
      ((allCheckIns.filter
          (fun ci => decide (now - 7 * msPerDay ≤ ci.timestamp))).map
        (fun ci => ci.userId)).dedup.length,
    activeLastMonth :=
      ((allCheckIns.filter
          (fun ci => decide (now - 30 * msPerDay ≤ ci.timestamp))).map
        (fun ci => ci.userId)).dedup.length,
    avgCheckInsPerUser :=
      if users.length > 0 then
        (round ((allCheckIns.length : ℚ) / (users.length : ℚ) * 10) : ℚ) / 10
      else 0 }

/-- Sum of `pointsEarned` over the events of one user, i.e. the replay
    of the event log for that user. -/
def userPointsSum (l : List CheckIn) (id : String) : Nat :=
  ((l.filter (fun ci => ci.userId == id)).map (fun ci => ci.pointsEarned)).sum

/-- The ids in the users map are pairwise distinct (an invariant of a JS
    `Map` keyed by id). -/
def UniqueUserIds (s : Store) : Prop :=
  (s.users.map userKey).Nodup

/-- Every stored balance equals the replay of the event log for that
    user. -/
def BalancesMatchLog (s : Store) : Prop :=
  ∀ u ∈ s.users, u.points = userPointsSum s.checkIns u.id

instance (s : Store) (id : String) : Decidable (FreshUserId s id) := by
  unfold FreshUserId
  infer_instance

instance instDecidableWfOps : (ops : List Op) → (s : Store) → Decidable (WfOps s ops)
  | [], _ => isTrue True.intro
  | op :: ops, s =>
      let hop : Decidable
          (match op with
            | .register id _ _ _ _ => FreshUserId s id
            | _ => True) := by
        cases op
        case register id email name role t =>
          exact inferInstanceAs (Decidable (FreshUserId s id))
        all_goals exact inferInstanceAs (Decidable True)
      let hrest : Decidable (WfOps (applyOp s op) ops) :=
        instDecidableWfOps ops (applyOp s op)
      @instDecidableAnd _ _ hop hrest

/-- Trace used by the C1 witness: one registered user with two
    check-ins, plus a wallet add and a check-in for an unregistered
    ghost id (the latter exercises the user-not-found exit, which
    appends an event for an id that has no account). -/
def mixedTrace : List Op :=
  [ .register "u1" "alice@example.com" "Alice" .user 1,
    .addToWallet "w1" "u1" "card-1" 2,
    .checkIn "e1" "u1" "card-1" 3 3 4,
    .checkIn "e2" "u1" "card-1" 5 6 7,
    .addToWallet "w2" "ghost" "card-2" 8,
    .checkIn "e3" "ghost" "card-2" 9 9 9 ]

/-- Trace for the C6 scenario: a registered user with card-1 in the
    wallet performs three check-ins. -/
def threeCheckInTrace : List Op :=
  [ .register "u1" "alice@example.com" "Alice" .user 1,
    .addToWallet "w1" "u1" "card-1" 2,
    .checkIn "e1" "u1" "card-1" 3 3 4,
    .checkIn "e2" "u1" "card-1" 5 6 7,
    .checkIn "e3" "u1" "card-1" 8 8 8 ]

/-- Trace for the C3 counterexample and witness: two role-'user'
    accounts registered in order, both with 0 points (a tie). -/
def tieTrace : List Op :=
  [ .register "u1" "a@x" "A" .user 1, .register "u2" "b@x" "B" .user 2 ]

/-- Store of `tieTrace`. -/
def tieStore : Store := applyOps (initialStore 0) tieTrace

/-- Trace for the C9 counterexample: the only account has role admin,
    adds a card and checks in. -/
def adminTrace : List Op :=
  [ .register "a1" "boss@example.com" "Boss" .admin 1,
    .addToWallet "w1" "a1" "card-1" 2,
    .checkIn "e1" "a1" "card-1" 3 3 4 ]

/-! ### Stores used by concrete witnesses and counterexamples -/

/-- Store used in the C2 witness: the demo store with card-1 deactivated
    through the PUT /cards/:id handler. -/
def storeWithInactiveCard : Store :=
  (updateCard (initialStore 0) "card-1" { isActive := some false } 1).2

/-- Store used in the C10 and C5 witnesses: one registered user with
    card-1 in the wallet. -/
def witnessStore : Store :=
  applyOps (initialStore 0)
    [ .register "u1" "alice@example.com" "Alice" .user 1,
      .addToWallet "w1" "u1" "card-1" 2 ]

/-- The user record of `witnessStore`. -/
def witnessUser : User :=
  { id := "u1", email := "alice@example.com", name := "Alice", role := .user,
    points := 0, createdAt := 1, updatedAt := 1 }

/-- Witness store for C5: after a check-in whose three clock readings
    are 3, 4 and 5. -/
def monotoneClockStore : Store :=
  applyOps (initialStore 0)
    [ .register "u1" "alice@example.com" "Alice" .user 1,
      .addToWallet "w1" "u1" "card-1" 2 ]

/-- Store refuting the literal C5: the two clock readings of the
    check-in handler differ (`timestamp: new Date()` gives 0, the later
    `lastCheckIn: new Date()` gives 1). -/
def lateClockStore : Store :=
  applyOps (initialStore 0)
    [ .register "u1" "alice@example.com" "Alice" .user 0,
      .addToWallet "w1" "u1" "card-1" 0,
      .checkIn "e1" "u1" "card-1" 0 0 1 ]

/-! ### Lemmas about the map model -/

theorem mapSet_eq_append {α : Type} (key : α → String) (l : List α) (a : α)
    (h : ∀ v ∈ l, key v ≠ key a) : mapSet key l a = l ++ [a] := by
  induction l with
  | nil => rfl
  | cons v vs ih =>
      have hv : key v ≠ key a := h v (List.mem_cons_self v vs)
      simp only [mapSet, if_neg hv, List.cons_append, List.cons.injEq, true_and]
      exact ih (fun w hw => h w (List.mem_cons_of_mem v hw))

theorem mem_of_mem_mapSet {α : Type} {key : α → String} {l : List α} {a v : α}
    (h : v ∈ mapSet key l a) : v = a ∨ v ∈ l := by
  induction l with
  | nil => simpa [mapSet] using h
  | cons u us ih =>
      by_cases hu : key u = key a
      · simp only [mapSet, if_pos hu] at h
        rcases List.mem_cons.mp h with h | h
        · exact Or.inl h
        · exact Or.inr (List.mem_cons_of_mem u h)
      · simp only [mapSet, if_neg hu] at h
        rcases List.mem_cons.mp h with h | h
        · exact Or.inr (h ▸ List.mem_cons_self u us)
        · rcases ih h with h | h
          · exact Or.inl h
          · exact Or.inr (List.mem_cons_of_mem u h)

theorem mem_mapSet_of_ne {α : Type} {key : α → String} {l : List α} {a v : α}
    (hv : v ∈ l) (hne : key v ≠ key a) : v ∈ mapSet key l a := by
  induction l with
  | nil => cases hv
  | cons u us ih =>
      by_cases hu : key u = key a
      · simp only [mapSet, if_pos hu]
        rcases List.mem_cons.mp hv with h | h
        · exact absurd (h ▸ hu) hne
        · exact List.mem_cons_of_mem a h
      · simp only [mapSet, if_neg hu]
        rcases List.mem_cons.mp hv with h | h
        · exact h ▸ List.mem_cons_self u (mapSet key us a)
        · exact List.mem_cons_of_mem u (ih h)

theorem find?_mapSet_of_key_eq {α : Type} (key : α → String) (l : List α) (a : α)
    (k : String) (hk : key a = k) :
    (mapSet key l a).find? (fun v => key v == k) = some a := by
  subst hk
  induction l with
  | nil => simp [mapSet]
  | cons u us ih =>
      by_cases hu : key u = key a
      · have ha : (key a == key a) = true := by simp
        rw [mapSet, if_pos hu]
        simp only [List.find?_cons, ha]
      · have hne : (key u == key a) = false := by simpa using hu
        rw [mapSet, if_neg hu]
        simp only [List.find?_cons, hne]
        exact ih

theorem find?_mapSet_of_key_ne {α : Type} (key : α → String) (l : List α) (a : α)
    (k : String) (hk : key a ≠ k) :
    (mapSet key l a).find? (fun v => key v == k) = l.find? (fun v => key v == k) := by
  induction l with
  | nil => simp [mapSet, hk]
  | cons u us ih =>
      by_cases hu : key u = key a
      · have h1 : (key a == k) = false := by simpa using hk
        have h2 : (key u == k) = false := by
          simp only [beq_eq_false_iff_ne, ne_eq]
          exact fun h => hk (hu ▸ h)
        rw [mapSet, if_pos hu]
        simp only [List.find?_cons, h1, h2]
      · rw [mapSet, if_neg hu]
        cases hud : (key u == k) with
        | true => simp only [List.find?_cons, hud]
        | false =>
            simp only [List.find?_cons, hud]
            exact ih

theorem map_key_mapSet {α : Type} (key : α → String) (l : List α) (a : α) :
    (mapSet key l a).map key =
      if l.any (fun v => key v == key a) then l.map key
      else l.map key ++ [key a] := by
  induction l with
  | nil => simp [mapSet]
  | cons u us ih =>
      by_cases hu : key u = key a
      · simp [mapSet, if_pos hu, List.any_cons, hu]
      · have : (key u == key a) = false := by simpa using hu
        simp only [mapSet, if_neg hu, List.map_cons, List.any_cons, this,
          Bool.false_or, ih]
        by_cases hany : us.any (fun v => key v == key a) = true
        · simp [hany]
        · simp [hany]

theorem length_mapSet {α : Type} (key : α → String) (l : List α) (a : α) :
    (mapSet key l a).length =
      if l.any (fun v => key v == key a) then l.length else l.length + 1 := by
  have h := congrArg List.length (map_key_mapSet key l a)
  simp only [List.length_map] at h
  rw [h]
  by_cases hany : l.any (fun v => key v == key a) = true
  · simp [hany]
  · simp [hany]

theorem mem_mapSet_strong {α : Type} {key : α → String} {l : List α} {a v : α}
    (hnd : (l.map key).Nodup) (w : α) (hw : w ∈ l) (hkey : key w = key a)
    (h : v ∈ mapSet key l a) : v = a ∨ (v ∈ l ∧ key v ≠ key a) := by
  induction l with
  | nil => cases hw
  | cons u us ih =>
      by_cases hu : key u = key a
      · simp only [mapSet, if_pos hu] at h
        rcases List.mem_cons.mp h with h | h
        · exact Or.inl h
        · refine Or.inr ⟨List.mem_cons_of_mem u h, ?_⟩
          have hnotin : key u ∉ us.map key := (List.nodup_cons.mp hnd).1
          intro hva
          exact hnotin (by
            have : key v ∈ us.map key := List.mem_map_of_mem key h
            rwa [hva, ← hu] at this)
      · simp only [mapSet, if_neg hu] at h
        rcases List.mem_cons.mp h with h | h
        · exact Or.inr ⟨h ▸ List.mem_cons_self u us, h ▸ hu⟩
        · have hw' : w ∈ us := by
            rcases List.mem_cons.mp hw with hwu | hwu
            · exact absurd (hwu ▸ hkey) hu
            · exact hwu
          rcases ih (List.nodup_cons.mp hnd).2 hw' h with h | ⟨h1, h2⟩
          · exact Or.inl h
          · exact Or.inr ⟨List.mem_cons_of_mem u h1, h2⟩

/-! ### Projection lemmas: which collections each operation touches -/

theorem updateUser_snd_proj (s : Store) (id : String) (up : UserUpdate) (t : Nat) :
    ((updateUser s id up t).2).cards = s.cards ∧
    ((updateUser s id up t).2).userCards = s.userCards ∧
    ((updateUser s id up t).2).checkIns = s.checkIns ∧
    ((updateUser s id up t).2).businesses = s.businesses := by
  unfold updateUser
  cases getUserById s id <;> simp

theorem updateUserCard_snd_proj (s : Store) (userId cardId : String)
    (up : UserCardUpdate) :
    ((updateUserCard s userId cardId up).2).users = s.users ∧
    ((updateUserCard s userId cardId up).2).cards = s.cards ∧
    ((updateUserCard s userId cardId up).2).checkIns = s.checkIns ∧
    ((updateUserCard s userId cardId up).2).businesses = s.businesses := by
  unfold updateUserCard
  cases getUserCard s userId cardId <;> simp

theorem updateCard_snd_proj (s : Store) (id : String) (up : CardUpdate) (t : Nat) :
    ((updateCard s id up t).2).users = s.users ∧
    ((updateCard s id up t).2).userCards = s.userCards ∧
    ((updateCard s id up t).2).checkIns = s.checkIns := by
  unfold updateCard
  cases getCardById s id <;> simp

theorem registerUser_snd_proj (s : Store) (id email name : String) (role : Role)
    (t : Nat) :
    ((registerUser s id email name role t).2).cards = s.cards ∧
    ((registerUser s id email name role t).2).userCards = s.userCards ∧
    ((registerUser s id email name role t).2).checkIns = s.checkIns := by
  unfold registerUser
  cases getUserByEmail s email <;> simp [createUser]

theorem addCardToWallet_snd_proj (s : Store) (ucId userId cardId : String) (t : Nat) :
    ((addCardToWallet s ucId userId cardId t).2).users = s.users ∧
    ((addCardToWallet s ucId userId cardId t).2).cards = s.cards ∧
    ((addCardToWallet s ucId userId cardId t).2).checkIns = s.checkIns := by
  unfold addCardToWallet
  cases getCardById s cardId with
  | none => simp
  | some card =>
      cases hact : card.isActive with
      | false => simp [hact]
      | true =>
          simp only [hact, Bool.not_true, Bool.false_eq_true, if_false]
          cases getUserCard s userId cardId <;> simp [addCardToUser]

theorem getUserById_createCheckIn (s : Store) (ci : CheckIn) (id : String) :
    getUserById (createCheckIn s ci) id = getUserById s id := rfl

theorem recordCheckIn_checkIns_extend (s : Store) (ciId userId cardId : String)
    (t1 t2 t3 : Nat) :
    ∃ tail, ((recordCheckIn s ciId userId cardId t1 t2 t3).2).checkIns =
      s.checkIns ++ tail := by
  unfold recordCheckIn
  cases hc : getCardById s cardId with
  | none => exact ⟨[], by simp⟩
  | some card =>
      cases hact : card.isActive with
      | false => exact ⟨[], by simp [hact]⟩
      | true =>
          simp only [hact, Bool.not_true, Bool.false_eq_true, if_false]
          cases hw : getUserCard s userId cardId with
          | none => exact ⟨[], by simp⟩
          | some uc =>
              simp only
              refine ⟨[{ id := ciId, userId := userId, cardId := cardId,
                         businessId := card.businessId,
                         pointsEarned := calculatePoints cardId userId,
                         timestamp := t1 }], ?_⟩
              cases hu : getUserById (createCheckIn s _) userId with
              | none => rfl
              | some user =>
                  simp only [(updateUserCard_snd_proj _ _ _ _).2.2.1,
                    (updateUser_snd_proj _ _ _ _).2.2.1]
                  rfl

/-- C8: check-in events are append-only and immutable: every mutating
    operation of the data store (user/card/business creation, user, card
    and wallet updates, card and wallet deletion, and check-in recording)
    leaves the existing `checkIns` array as a prefix of the new one, so
    an appended event is never modified or removed and the event log only
    grows.  (All aggregation reads are pure functions of the store in
    this embedding and cannot mutate it.) -/
theorem checkIns_append_only (s : Store) (op : Op) :
    ∃ tail, (applyOp s op).checkIns = s.checkIns ++ tail := by
  cases op with
  | register id email name role t =>
      exact ⟨[], by simp [applyOp, (registerUser_snd_proj s id email name role t).2.2]⟩
  | createCard id businessId name t =>
      exact ⟨[], by simp [applyOp, createCardHandler, createCard]⟩
  | updateCard id up t =>
      exact ⟨[], by simp [applyOp, (updateCard_snd_proj s id up t).2.2]⟩
  | deleteCard id => exact ⟨[], by simp [applyOp, deleteCard]⟩
  | addToWallet ucId userId cardId t =>
      exact ⟨[], by simp [applyOp, (addCardToWallet_snd_proj s ucId userId cardId t).2.2]⟩
  | removeFromWallet userId cardId =>
      exact ⟨[], by simp [applyOp, removeCardFromUser]⟩
  | checkIn ciId userId cardId t1 t2 t3 =>
      exact recordCheckIn_checkIns_extend s ciId userId cardId t1 t2 t3

/-- C2: when validation of a check-in fails — unknown card id, inactive
    card, or no wallet entry for (userId, cardId) — the handler returns
    the corresponding typed failure and the store is returned unchanged:
    no event is appended and no balance or wallet entry is modified. -/
theorem checkIn_validation_failure (s : Store) (ciId userId cardId : String)
    (t1 t2 t3 : Nat) :
    (getCardById s cardId = none →
        recordCheckIn s ciId userId cardId t1 t2 t3 = (.cardNotFound, s)) ∧
    (∀ card, getCardById s cardId = some card → card.isActive = false →
        recordCheckIn s ciId userId cardId t1 t2 t3 = (.cardInactive, s)) ∧
    (∀ card, getCardById s cardId = some card → card.isActive = true →
        getUserCard s userId cardId = none →
        recordCheckIn s ciId userId cardId t1 t2 t3 = (.notInWallet, s)) := by
  refine ⟨?_, ?_, ?_⟩
  · intro h
    unfold recordCheckIn
    rw [h]
  · intro card hc hact
    unfold recordCheckIn
    rw [hc]
    simp [hact]
  · intro card hc hact hw
    unfold recordCheckIn
    rw [hc]
    simp [hact, hw]

/-- Witness for C2: each of the three failure exits, exercised on
    concrete stores. -/
theorem checkIn_validation_failure_witness :
    recordCheckIn (initialStore 0) "e1" "u1" "card-9" 0 0 0 =
      (.cardNotFound, initialStore 0) ∧
    recordCheckIn storeWithInactiveCard "e1" "u1" "card-1" 0 0 0 =
      (.cardInactive, storeWithInactiveCard) ∧
    recordCheckIn (initialStore 0) "e1" "u1" "card-1" 0 0 0 =
      (.notInWallet, initialStore 0) := by
  refine ⟨?_, ?_, ?_⟩
  · exact (checkIn_validation_failure (initialStore 0) "e1" "u1" "card-9" 0 0 0).1
      (by decide)
  · exact (checkIn_validation_failure storeWithInactiveCard "e1" "u1" "card-1" 0 0 0).2.1
      (applyCardUpdate (mockCard "card-1" "Coffee Loyalty Card" 0)
        { isActive := some false } 1)
      (by decide) (by decide)
  · exact (checkIn_validation_failure (initialStore 0) "e1" "u1" "card-1" 0 0 0).2.2
      (mockCard "card-1" "Coffee Loyalty Card" 0) (by decide) (by decide) (by decide)

/-- C10: `updateUser` and `updateUserCard` return `none` (JS
    `undefined`) and leave the whole store unchanged when the target
    record does not exist; a successful update returns the merged
    record, stores it under the same key (same map size, all records
    with a different key untouched, all other collections untouched),
    and for users refreshes `updatedAt` to the update time. -/
theorem update_missing_none_success_targeted (s : Store) (id userId cardId : String)
    (up : UserUpdate) (ucUp : UserCardUpdate) (t : Nat) :
    (getUserById s id = none → updateUser s id up t = (none, s)) ∧
    (getUserCard s userId cardId = none →
        updateUserCard s userId cardId ucUp = (none, s)) ∧
    (∀ u, getUserById s id = some u →
        (updateUser s id up t).1 = some (applyUserUpdate u up t) ∧
        (applyUserUpdate u up t).updatedAt = t ∧
        getUserById (updateUser s id up t).2 id = some (applyUserUpdate u up t) ∧
        ((updateUser s id up t).2).users.length = s.users.length ∧
        (∀ v ∈ s.users, v.id ≠ id → v ∈ ((updateUser s id up t).2).users) ∧
        (∀ v ∈ ((updateUser s id up t).2).users, v.id ≠ id → v ∈ s.users) ∧
        ((updateUser s id up t).2).cards = s.cards ∧
        ((updateUser s id up t).2).userCards = s.userCards ∧
        ((updateUser s id up t).2).checkIns = s.checkIns) ∧
    (∀ uc, getUserCard s userId cardId = some uc →
        (updateUserCard s userId cardId ucUp).1 = some (applyUserCardUpdate uc ucUp) ∧
        getUserCard (updateUserCard s userId cardId ucUp).2 userId cardId =
          some (applyUserCardUpdate uc ucUp) ∧
        ((updateUserCard s userId cardId ucUp).2).userCards.length =
          s.userCards.length ∧
        (∀ v ∈ s.userCards, walletKey v.userId v.cardId ≠ walletKey userId cardId →
          v ∈ ((updateUserCard s userId cardId ucUp).2).userCards) ∧
        (∀ v ∈ ((updateUserCard s userId cardId ucUp).2).userCards,
          walletKey v.userId v.cardId ≠ walletKey userId cardId → v ∈ s.userCards) ∧
        ((updateUserCard s userId cardId ucUp).2).users = s.users ∧
        ((updateUserCard s userId cardId ucUp).2).cards = s.cards ∧
        ((updateUserCard s userId cardId ucUp).2).checkIns = s.checkIns) := by
  refine ⟨?_, ?_, ?_, ?_⟩
  · intro h
    unfold updateUser
    rw [h]
  · intro h
    unfold updateUserCard
    rw [h]
  · intro u hu
    have hid : u.id = id := by
      simpa using List.find?_some hu
    have hmem : u ∈ s.users := List.mem_of_find?_eq_some hu
    have hkey : userKey (applyUserUpdate u up t) = id := hid
    have hkey2 : (applyUserUpdate u up t).id = id := hid
    have hres : updateUser s id up t =
        (some (applyUserUpdate u up t),
         { s with users := mapSet userKey s.users (applyUserUpdate u up t) }) := by
      unfold updateUser
      rw [hu]
    rw [hres]
    have hany : s.users.any (fun v => userKey v == userKey (applyUserUpdate u up t)) =
        true := by
      refine List.any_eq_true.mpr ⟨u, hmem, ?_⟩
      simp [userKey, hkey2, hid]
    refine ⟨rfl, rfl, ?_, ?_, ?_, ?_, rfl, rfl, rfl⟩
    · show (mapSet userKey s.users (applyUserUpdate u up t)).find?
        (fun v => v.id == id) = some (applyUserUpdate u up t)
      exact find?_mapSet_of_key_eq userKey s.users (applyUserUpdate u up t) id hkey
    · show (mapSet userKey s.users (applyUserUpdate u up t)).length = s.users.length
      rw [length_mapSet, if_pos hany]
    · intro v hv hne
      exact mem_mapSet_of_ne hv (by simpa [userKey, hkey2] using hne)
    · intro v hv hne
      rcases mem_of_mem_mapSet hv with h | h
      · exact absurd (h ▸ hkey) hne
      · exact h
  · intro uc huc
    have hkey0 : walletKey uc.userId uc.cardId = walletKey userId cardId := by
      simpa using List.find?_some huc
    have hmem : uc ∈ s.userCards := List.mem_of_find?_eq_some huc
    have hkey : userCardKey (applyUserCardUpdate uc ucUp) = walletKey userId cardId :=
      hkey0
    have hkey2 : walletKey (applyUserCardUpdate uc ucUp).userId
        (applyUserCardUpdate uc ucUp).cardId = walletKey userId cardId := hkey0
    have hres : updateUserCard s userId cardId ucUp =
        (some (applyUserCardUpdate uc ucUp),
         { s with userCards :=
            mapSet userCardKey s.userCards (applyUserCardUpdate uc ucUp) }) := by
      unfold updateUserCard
      rw [huc]
    rw [hres]
    have hany : s.userCards.any
        (fun v => userCardKey v == userCardKey (applyUserCardUpdate uc ucUp)) =
        true := by
      refine List.any_eq_true.mpr ⟨uc, hmem, ?_⟩
      simp [userCardKey, hkey2, hkey0]
    refine ⟨rfl, ?_, ?_, ?_, ?_, rfl, rfl, rfl⟩
    · show (mapSet userCardKey s.userCards (applyUserCardUpdate uc ucUp)).find?
        (fun v => walletKey v.userId v.cardId == walletKey userId cardId) =
        some (applyUserCardUpdate uc ucUp)
      exact find?_mapSet_of_key_eq userCardKey s.userCards
        (applyUserCardUpdate uc ucUp) (walletKey userId cardId) hkey
    · show (mapSet userCardKey s.userCards (applyUserCardUpdate uc ucUp)).length =
        s.userCards.length
      rw [length_mapSet, if_pos hany]
    · intro v hv hne
      exact mem_mapSet_of_ne hv (by simpa [userCardKey, hkey2] using hne)
    · intro v hv hne
      rcases mem_of_mem_mapSet hv with h | h
      · exact absurd (h ▸ hkey) hne
      · exact h

/-- Witness for C10: the four cases of the theorem, applied to the
    concrete `witnessStore`. -/
theorem update_missing_none_success_targeted_witness :
    updateUser witnessStore "zz" { points := some 5 } 7 = (none, witnessStore) ∧
    updateUserCard witnessStore "u1" "card-9" { lastCheckIn := some 9 } =
      (none, witnessStore) ∧
    getUserById (updateUser witnessStore "u1" { points := some 5 } 7).2 "u1" =
      some (applyUserUpdate witnessUser { points := some 5 } 7) ∧
    getUserCard (updateUserCard witnessStore "u1" "card-1"
        { lastCheckIn := some 9 }).2 "u1" "card-1" =
      some (applyUserCardUpdate
        { id := "w1", userId := "u1", cardId := "card-1", addedAt := 2,
          lastCheckIn := none } { lastCheckIn := some 9 }) := by
  refine ⟨?_, ?_, ?_, ?_⟩
  · exact (update_missing_none_success_targeted witnessStore "zz" "u1" "card-9"
      { points := some 5 } { lastCheckIn := some 9 } 7).1 (by decide)
  · exact (update_missing_none_success_targeted witnessStore "zz" "u1" "card-9"
      { points := some 5 } { lastCheckIn := some 9 } 7).2.1 (by decide)
  · exact ((update_missing_none_success_targeted witnessStore "u1" "u1" "card-1"
      { points := some 5 } { lastCheckIn := some 9 } 7).2.2.1 witnessUser
      (by decide)).2.2.1
  · exact ((update_missing_none_success_targeted witnessStore "u1" "u1" "card-1"
      { points := some 5 } { lastCheckIn := some 9 } 7).2.2.2
      { id := "w1", userId := "u1", cardId := "card-1", addedAt := 2,
        lastCheckIn := none }
      (by decide)).2.1

theorem getUserCard_updateUserCard_self (s : Store) (userId cardId : String)
    (up : UserCardUpdate) (uc : UserCard)
    (h : getUserCard s userId cardId = some uc) :
    getUserCard (updateUserCard s userId cardId up).2 userId cardId =
      some (applyUserCardUpdate uc up) := by
  have hkeyuc : walletKey uc.userId uc.cardId = walletKey userId cardId := by
    simpa using List.find?_some h
  unfold updateUserCard
  rw [h]
  simp only
  unfold getUserCard
  exact find?_mapSet_of_key_eq userCardKey s.userCards
    (applyUserCardUpdate uc up) (walletKey userId cardId) hkeyuc

/-- All timestamps stored in the wallet cursors and the event log are at
    most `n`.  This holds of every store reached with a monotone clock
    when `n` is the next clock reading. -/
def StoreTimesLE (s : Store) (n : Nat) : Prop :=
  (∀ uc ∈ s.userCards, ∀ p, uc.lastCheckIn = some p → p ≤ n) ∧
  (∀ ci ∈ s.checkIns, ci.timestamp ≤ n)

/-- C5 (amended): a successful check-in sets the wallet entry's
    `lastCheckIn` to the third clock reading `t3` — a fresh `new Date()`
    taken after the event's timestamp `t1`, not that timestamp itself.
    The new value is at least the event's timestamp, at least every
    previously stored `lastCheckIn`, and at least every event timestamp
    recorded for the pair (indeed for any pair). -/
theorem checkIn_lastCheckIn_monotone (s : Store) (ciId userId cardId : String)
    (t1 t2 t3 tp : Nat) (sOut : Store)
    (hts : StoreTimesLE s t1) (h12 : t1 ≤ t2) (h23 : t2 ≤ t3)
    (h : recordCheckIn s ciId userId cardId t1 t2 t3 = (.success tp, sOut)) :
    (getUserCard sOut userId cardId).map (fun uc => uc.lastCheckIn) =
      some (some t3) ∧
    t1 ≤ t3 ∧
    (∀ uc ∈ s.userCards, ∀ p, uc.lastCheckIn = some p → p ≤ t3) ∧
    (∀ ci ∈ sOut.checkIns, ci.timestamp ≤ t3) := by
  have h13 : t1 ≤ t3 := Nat.le_trans h12 h23
  unfold recordCheckIn at h
  cases hc : getCardById s cardId with
  | none =>
      rw [hc] at h
      simp at h
  | some card =>
      rw [hc] at h
      cases hact : card.isActive with
      | false => simp [hact] at h
      | true =>
          simp only [hact, Bool.not_true, Bool.false_eq_true, if_false] at h
          cases hw : getUserCard s userId cardId with
          | none =>
              rw [hw] at h
              simp at h
          | some uc =>
              rw [hw] at h
              simp only at h
              cases hu : getUserById (createCheckIn s
                  { id := ciId, userId := userId, cardId := cardId,
                    businessId := card.businessId,
                    pointsEarned := calculatePoints cardId userId,
                    timestamp := t1 }) userId with
              | none =>
                  rw [hu] at h
                  simp at h
              | some user =>
                  rw [hu] at h
                  simp only [Prod.mk.injEq, CheckInResult.success.injEq] at h
                  obtain ⟨-, hout⟩ := h
                  have hkeyuc : walletKey uc.userId uc.cardId =
                      walletKey userId cardId := by
                    simpa using List.find?_some hw
                  -- the store after the user update: wallet entries unchanged
                  have hw2 : getUserCard
                      ((updateUser (createCheckIn s
                          { id := ciId, userId := userId, cardId := cardId,
                            businessId := card.businessId,
                            pointsEarned := calculatePoints cardId userId,
                            timestamp := t1 }) userId
                          { points := some (user.points + calculatePoints cardId userId) }
                          t2).2) userId cardId = some uc := by
                    unfold getUserCard
                    rw [(updateUser_snd_proj _ _ _ _).2.1]
                    exact hw
                  refine ⟨?_, h13, ?_, ?_⟩
                  · rw [← hout]
                    rw [getUserCard_updateUserCard_self _ _ _ _ uc hw2]
                    rfl
                  · intro uc2 hm p hp
                    exact Nat.le_trans (hts.1 uc2 hm p hp) h13
                  · intro ci2 hm
                    rw [← hout] at hm
                    rw [(updateUserCard_snd_proj _ _ _ _).2.2.1,
                      (updateUser_snd_proj _ _ _ _).2.2.1] at hm
                    simp only [createCheckIn, List.mem_append,
                      List.mem_singleton] at hm
                    rcases hm with hm | hm
                    · exact Nat.le_trans (hts.2 ci2 hm) h13
                    · rw [hm]
                      exact h13

/-- Witness for C5 (amended): applied to the concrete store with clock
    readings 3 ≤ 4 ≤ 5. -/
theorem checkIn_lastCheckIn_monotone_witness :
    (getUserCard (recordCheckIn monotoneClockStore "e1" "u1" "card-1" 3 4 5).2
        "u1" "card-1").map (fun uc => uc.lastCheckIn) = some (some 5) ∧
    (3 : Nat) ≤ 5 ∧
    (∀ uc ∈ monotoneClockStore.userCards, ∀ p, uc.lastCheckIn = some p → p ≤ 5) ∧
    (∀ ci ∈ ((recordCheckIn monotoneClockStore "e1" "u1" "card-1" 3 4 5).2).checkIns,
      ci.timestamp ≤ 5) :=
  checkIn_lastCheckIn_monotone monotoneClockStore "e1" "u1" "card-1" 3 4 5 10
    (recordCheckIn monotoneClockStore "e1" "u1" "card-1" 3 4 5).2
    (by refine ⟨?_, ?_⟩
        · intro uc hm p hp
          have hl : monotoneClockStore.userCards =
              [{ id := "w1", userId := "u1", cardId := "card-1", addedAt := 2,
                 lastCheckIn := none }] := by decide
          rw [hl] at hm
          simp only [List.mem_singleton] at hm
          rw [hm] at hp
          simp at hp
        · intro ci hm
          have hl : monotoneClockStore.checkIns = [] := by decide
          rw [hl] at hm
          simp at hm)
    (by decide) (by decide) (by decide)

/-- Counterexample to C5 as stated: after the successful check-in the
    wallet entry's `lastCheckIn` is 1, while the timestamp of the (only)
    appended check-in event — which is also the maximum event timestamp
    for the pair — is 0, so `lastCheckIn` is not equal to it. -/
theorem checkIn_lastCheckIn_ne_event_timestamp :
    (getUserCard lateClockStore "u1" "card-1").map (fun uc => uc.lastCheckIn) =
      some (some 1) ∧
    lateClockStore.checkIns.map (fun ci => ci.timestamp) = [0] ∧
    ¬ ((some (1 : Nat) : Option Nat) = some 0) := by
  decide

theorem userPointsSum_append (l1 l2 : List CheckIn) (id : String) :
    userPointsSum (l1 ++ l2) id = userPointsSum l1 id + userPointsSum l2 id := by
  simp [userPointsSum, List.filter_append]

theorem userPointsSum_singleton (ci : CheckIn) (id : String) :
    userPointsSum [ci] id = if ci.userId = id then ci.pointsEarned else 0 := by
  by_cases h : ci.userId = id
  · have hb : (ci.userId == id) = true := by simpa using h
    simp [userPointsSum, List.filter, hb, h]
  · have hb : (ci.userId == id) = false := by simpa using h
    simp [userPointsSum, List.filter, hb, h]

theorem userPointsSum_eq_zero (l : List CheckIn) (id : String)
    (h : ∀ ci ∈ l, ci.userId ≠ id) : userPointsSum l id = 0 := by
  have : l.filter (fun ci => ci.userId == id) = [] := by
    rw [List.filter_eq_nil]
    intro ci hm
    simpa using h ci hm
  simp [userPointsSum, this]

theorem inv_preserved (s : Store) (op : Op)
    (hnd : UniqueUserIds s) (hbal : BalancesMatchLog s)
    (hfresh : match op with
      | .register id _ _ _ _ => FreshUserId s id
      | _ => True) :
    UniqueUserIds (applyOp s op) ∧ BalancesMatchLog (applyOp s op) := by
  cases op with
  | register id email name role t =>
      have hf : FreshUserId s id := hfresh
      simp only [applyOp]
      unfold registerUser
      cases he : getUserByEmail s email with
      | some u => exact ⟨hnd, hbal⟩
      | none =>
          simp only
          have happ : mapSet userKey s.users (User.mk id email name role 0 t t) =
              s.users ++ [User.mk id email name role 0 t t] := by
            apply mapSet_eq_append
            intro v hv
            simpa [userKey] using hf.1 v hv
          constructor
          · show (List.map userKey (mapSet userKey s.users _)).Nodup
            rw [happ, List.map_append]
            simp only [List.map_cons, List.map_nil]
            rw [List.nodup_append]
            refine ⟨hnd, List.nodup_singleton _, ?_⟩
            intro k hk
            simp only [List.mem_map] at hk
            obtain ⟨v, hv, hkv⟩ := hk
            simp only [List.mem_singleton]
            intro hkid
            exact hf.1 v hv (by simpa [userKey, hkid] using hkv)
          · intro v hv
            show v.points = userPointsSum s.checkIns v.id
            have hv' : v ∈ mapSet userKey s.users _ := hv
            rw [happ] at hv'
            rcases List.mem_append.mp hv' with h | h
            · exact hbal v h
            · simp only [List.mem_singleton] at h
              subst h
              show 0 = userPointsSum s.checkIns id
              exact (userPointsSum_eq_zero s.checkIns id hf.2).symm
  | createCard id businessId name t =>
      refine ⟨?_, ?_⟩
      · exact hnd
      · intro v hv
        exact hbal v hv
  | updateCard id up t =>
      have h := updateCard_snd_proj s id up t
      refine ⟨?_, ?_⟩
      · show ((applyOp s (.updateCard id up t)).users.map userKey).Nodup
        simp only [applyOp, h.1]
        exact hnd
      · intro v hv
        simp only [applyOp, h.1] at hv
        show v.points = userPointsSum (applyOp s (.updateCard id up t)).checkIns v.id
        simp only [applyOp, h.2.2]
        exact hbal v hv
  | deleteCard id =>
      refine ⟨hnd, ?_⟩
      intro v hv
      exact hbal v hv
  | addToWallet ucId userId cardId t =>
      have h := addCardToWallet_snd_proj s ucId userId cardId t
      refine ⟨?_, ?_⟩
      · show ((applyOp s (.addToWallet ucId userId cardId t)).users.map userKey).Nodup
        simp only [applyOp, h.1]
        exact hnd
      · intro v hv
        simp only [applyOp, h.1] at hv
        show v.points =
          userPointsSum (applyOp s (.addToWallet ucId userId cardId t)).checkIns v.id
        simp only [applyOp, h.2.2]
        exact hbal v hv
  | removeFromWallet userId cardId =>
      refine ⟨hnd, ?_⟩
      intro v hv
      exact hbal v hv
  | checkIn ciId userId cardId t1 t2 t3 =>
      simp only [applyOp]
      unfold recordCheckIn
      cases hc : getCardById s cardId with
      | none => exact ⟨hnd, hbal⟩
      | some card =>
          cases hact : card.isActive with
          | false =>
              simp only [hact, Bool.not_false, if_true]
              exact ⟨hnd, hbal⟩
          | true =>
              simp only [hact, Bool.not_true, Bool.false_eq_true, if_false]
              cases hw : getUserCard s userId cardId with
              | none => exact ⟨hnd, hbal⟩
              | some uc =>
                  simp only
                  cases hu : getUserById (createCheckIn s
                      { id := ciId, userId := userId, cardId := cardId,
                        businessId := card.businessId,
                        pointsEarned := calculatePoints cardId userId,
                        timestamp := t1 }) userId with
                  | none =>
                      have hne : ∀ w ∈ s.users, w.id ≠ userId := by
                        intro w hw2
                        have := List.find?_eq_none.mp hu w hw2
                        simpa using this
                      refine ⟨hnd, ?_⟩
                      intro v hv
                      show v.points = userPointsSum
                        (s.checkIns ++
                          [{ id := ciId, userId := userId, cardId := cardId,
                             businessId := card.businessId,
                             pointsEarned := calculatePoints cardId userId,
                             timestamp := t1 }]) v.id
                      rw [userPointsSum_append, userPointsSum_singleton]
                      have hvne : userId ≠ v.id := fun h => hne v hv h.symm
                      rw [if_neg hvne, Nat.add_zero]
                      exact hbal v hv
                  | some user =>
                      simp only
                      have huid : user.id = userId := by
                        simpa using List.find?_some hu
                      have hmem : user ∈ s.users := List.mem_of_find?_eq_some hu
                      -- the stored, updated user record
                      have hupid :
                          (applyUserUpdate user
                            { points := some (user.points + calculatePoints cardId userId) }
                            t2).id = userId := huid
                      have hany : s.users.any (fun v => userKey v ==
                          userKey (applyUserUpdate user
                            { points := some (user.points + calculatePoints cardId userId) }
                            t2)) = true := by
                        refine List.any_eq_true.mpr ⟨user, hmem, ?_⟩
                        simp [userKey, hupid, huid]
                      have husers : ((updateUserCard ((updateUser (createCheckIn s
                          { id := ciId, userId := userId, cardId := cardId,
                            businessId := card.businessId,
                            pointsEarned := calculatePoints cardId userId,
                            timestamp := t1 }) userId
                          { points := some (user.points + calculatePoints cardId userId) }
                          t2).2) userId cardId { lastCheckIn := some t3 }).2).users =
                          mapSet userKey s.users (applyUserUpdate user
                            { points := some (user.points + calculatePoints cardId userId) }
                            t2) := by
                        rw [(updateUserCard_snd_proj _ _ _ _).1]
                        unfold updateUser
                        rw [hu]
                        rfl
                      have hchk : ((updateUserCard ((updateUser (createCheckIn s
                          { id := ciId, userId := userId, cardId := cardId,
                            businessId := card.businessId,
                            pointsEarned := calculatePoints cardId userId,
                            timestamp := t1 }) userId
                          { points := some (user.points + calculatePoints cardId userId) }
                          t2).2) userId cardId { lastCheckIn := some t3 }).2).checkIns =
                          s.checkIns ++
                          [{ id := ciId, userId := userId, cardId := cardId,
                             businessId := card.businessId,
                             pointsEarned := calculatePoints cardId userId,
                             timestamp := t1 }] := by
                        rw [(updateUserCard_snd_proj _ _ _ _).2.2.1,
                          (updateUser_snd_proj _ _ _ _).2.2.1]
                        rfl
                      constructor
                      · unfold UniqueUserIds
                        rw [husers, map_key_mapSet, if_pos hany]
                        exact hnd
                      · intro v hv
                        rw [husers] at hv
                        have hs := mem_mapSet_strong hnd user hmem
                          (by simp [userKey, hupid, huid]) hv
                        rw [hchk, userPointsSum_append, userPointsSum_singleton]
                        rcases hs with hv2 | ⟨hv2, hvne⟩
                        · subst hv2
                          show user.points + calculatePoints cardId userId = _
                          rw [hupid, if_pos rfl]
                          have := hbal user hmem
                          rw [huid] at this
                          rw [this]
                        · have : userId ≠ v.id := by
                            intro h
                            exact hvne (by simpa [userKey, hupid] using h.symm)
                          rw [if_neg this, Nat.add_zero]
                          exact hbal v hv2

theorem inv_applyOps (s : Store) (ops : List Op)
    (hnd : UniqueUserIds s) (hbal : BalancesMatchLog s) (hwf : WfOps s ops) :
    UniqueUserIds (applyOps s ops) ∧ BalancesMatchLog (applyOps s ops) := by
  induction ops generalizing s with
  | nil => exact ⟨hnd, hbal⟩
  | cons op ops ih =>
      obtain ⟨hop, hrest⟩ := hwf
      have h := inv_preserved s op hnd hbal hop
      exact ih (applyOp s op) h.1 h.2 hrest

/-- C1: after any well-formed sequence of completed operations
    (registrations, card and wallet operations, check-ins — including
    every failure exit of the check-in handler), every stored user's
    point balance equals the sum of `pointsEarned` over the check-in
    events recorded for that user's id: the balance and the log never
    diverge for any account in the store. -/
theorem balances_match_event_log (t0 : Nat) (ops : List Op)
    (hwf : WfOps (initialStore t0) ops) :
    ∀ u ∈ (applyOps (initialStore t0) ops).users,
      u.points = userPointsSum (applyOps (initialStore t0) ops).checkIns u.id := by
  have h0nd : UniqueUserIds (initialStore t0) := by
    simp [UniqueUserIds, initialStore]
  have h0bal : BalancesMatchLog (initialStore t0) := by
    intro u hu
    simp [initialStore] at hu
  exact (inv_applyOps (initialStore t0) ops h0nd h0bal hwf).2

/-- Witness for C1: the mixed trace (two successful check-ins for a
    registered user plus a user-not-found check-in for a ghost id) is
    well-formed and satisfies the invariant. -/
theorem balances_match_event_log_witness :
    WfOps (initialStore 0) mixedTrace ∧
    ∀ u ∈ (applyOps (initialStore 0) mixedTrace).users,
      u.points = userPointsSum (applyOps (initialStore 0) mixedTrace).checkIns u.id :=
  ⟨by decide, balances_match_event_log 0 mixedTrace (by decide)⟩

theorem recordCheckIn_new_event_points (s : Store) (ciId userId cardId : String)
    (t1 t2 t3 : Nat) :
    ∀ ci ∈ ((recordCheckIn s ciId userId cardId t1 t2 t3).2).checkIns,
      ci ∈ s.checkIns ∨ ci.pointsEarned = 10 := by
  intro ci hci
  unfold recordCheckIn at hci
  cases hc : getCardById s cardId with
  | none =>
      rw [hc] at hci
      exact Or.inl hci
  | some card =>
      rw [hc] at hci
      cases hact : card.isActive with
      | false =>
          simp only [hact, Bool.not_false, if_true] at hci
          exact Or.inl hci
      | true =>
          simp only [hact, Bool.not_true, Bool.false_eq_true, if_false] at hci
          cases hw : getUserCard s userId cardId with
          | none =>
              rw [hw] at hci
              exact Or.inl hci
          | some uc =>
              rw [hw] at hci
              simp only at hci
              cases hu : getUserById (createCheckIn s
                  { id := ciId, userId := userId, cardId := cardId,
                    businessId := card.businessId,
                    pointsEarned := calculatePoints cardId userId,
                    timestamp := t1 }) userId with
              | none =>
                  rw [hu] at hci
                  simp only [createCheckIn, List.mem_append,
                    List.mem_singleton] at hci
                  rcases hci with h | h
                  · exact Or.inl h
                  · exact Or.inr (by rw [h]; rfl)
              | some user =>
                  rw [hu] at hci
                  simp only at hci
                  rw [(updateUserCard_snd_proj _ _ _ _).2.2.1,
                    (updateUser_snd_proj _ _ _ _).2.2.1] at hci
                  simp only [createCheckIn, List.mem_append,
                    List.mem_singleton] at hci
                  rcases hci with h | h
                  · exact Or.inl h
                  · exact Or.inr (by rw [h]; rfl)

theorem applyOp_points_ten (s : Store) (op : Op)
    (h : ∀ ci ∈ s.checkIns, ci.pointsEarned = 10) :
    ∀ ci ∈ (applyOp s op).checkIns, ci.pointsEarned = 10 := by
  cases op with
  | register id email name role t =>
      intro ci hci
      rw [applyOp, (registerUser_snd_proj s id email name role t).2.2] at hci
      exact h ci hci
  | createCard id businessId name t =>
      intro ci hci
      exact h ci hci
  | updateCard id up t =>
      intro ci hci
      rw [applyOp, (updateCard_snd_proj s id up t).2.2] at hci
      exact h ci hci
  | deleteCard id =>
      intro ci hci
      exact h ci hci
  | addToWallet ucId userId cardId t =>
      intro ci hci
      rw [applyOp, (addCardToWallet_snd_proj s ucId userId cardId t).2.2] at hci
      exact h ci hci
  | removeFromWallet userId cardId =>
      intro ci hci
      exact h ci hci
  | checkIn ciId userId cardId t1 t2 t3 =>
      intro ci hci
      rcases recordCheckIn_new_event_points s ciId userId cardId t1 t2 t3 ci hci with
        hm | hp
      · exact h ci hm
      · exact hp

theorem applyOps_points_ten (s : Store) (ops : List Op)
    (h : ∀ ci ∈ s.checkIns, ci.pointsEarned = 10) :
    ∀ ci ∈ (applyOps s ops).checkIns, ci.pointsEarned = 10 := by
  induction ops generalizing s with
  | nil => exact h
  | cons op ops ih => exact ih (applyOp s op) (applyOp_points_ten s op h)

/-- C6: the points policy `calculatePoints` is a pure function of its
    arguments returning the fixed (non-negative) base value 10; every
    event that ever enters the log carries `pointsEarned = 10`; on each
    successful check-in the returned `totalPoints` is the user's
    previous balance plus 10; and after three check-ins by a user with
    an active card in their wallet the stored balance is 30. -/
theorem points_policy_fixed_ten :
    (∀ cardId userId, calculatePoints cardId userId = 10) ∧
    (∀ t0 ops, ∀ ci ∈ (applyOps (initialStore t0) ops).checkIns,
      ci.pointsEarned = 10) ∧
    (∀ s ciId userId cardId t1 t2 t3 tp sOut,
      recordCheckIn s ciId userId cardId t1 t2 t3 = (.success tp, sOut) →
      ∀ u, getUserById s userId = some u → tp = u.points + 10) ∧
    (getUserById (applyOps (initialStore 0) threeCheckInTrace) "u1").map
      (fun u => u.points) = some 30 := by
  refine ⟨fun _ _ => rfl, ?_, ?_, by decide⟩
  · intro t0 ops
    apply applyOps_points_ten
    intro ci hci
    simp [initialStore] at hci
  · intro s ciId userId cardId t1 t2 t3 tp sOut h u hu0
    unfold recordCheckIn at h
    cases hc : getCardById s cardId with
    | none =>
        rw [hc] at h
        simp at h
    | some card =>
        rw [hc] at h
        cases hact : card.isActive with
        | false => simp [hact] at h
        | true =>
            simp only [hact, Bool.not_true, Bool.false_eq_true, if_false] at h
            cases hw : getUserCard s userId cardId with
            | none =>
                rw [hw] at h
                simp at h
            | some uc =>
                rw [hw] at h
                simp only at h
                cases hu : getUserById (createCheckIn s
                    { id := ciId, userId := userId, cardId := cardId,
                      businessId := card.businessId,
                      pointsEarned := calculatePoints cardId userId,
                      timestamp := t1 }) userId with
                | none =>
                    rw [hu] at h
                    simp at h
                | some user =>
                    rw [hu] at h
                    simp only [Prod.mk.injEq, CheckInResult.success.injEq] at h
                    have huser : user = u := by
                      have : getUserById s userId = some user := hu
                      rw [hu0] at this
                      exact (Option.some.injEq _ _ ▸ this).symm
                    rw [← h.1, huser]
                    rfl

/-- Witness for C6: the policy value, the all-events invariant on the
    mixed trace, the totalPoints contract at a concrete store, and the
    three-check-in scenario. -/
theorem points_policy_fixed_ten_witness :
    calculatePoints "card-1" "u1" = 10 ∧
    (∀ ci ∈ (applyOps (initialStore 0) threeCheckInTrace).checkIns,
      ci.pointsEarned = 10) ∧
    (10 : Nat) = witnessUser.points + 10 ∧
    (getUserById (applyOps (initialStore 0) threeCheckInTrace) "u1").map
      (fun u => u.points) = some 30 :=
  ⟨points_policy_fixed_ten.1 "card-1" "u1",
   points_policy_fixed_ten.2.1 0 threeCheckInTrace,
   points_policy_fixed_ten.2.2.1 witnessStore "e1" "u1" "card-1" 3 4 5 10
     (recordCheckIn witnessStore "e1" "u1" "card-1" 3 4 5).2 (by decide)
     witnessUser (by decide),
   points_policy_fixed_ten.2.2.2⟩

/-- C7: for every card, the entry of GET /analytics/cards reports
    `totalCheckIns` as the number of events with that cardId,
    `uniqueUsers` as the number of distinct userIds among those events,
    and `avgCheckInsPerUser` as totalCheckIns divided by uniqueUsers
    rounded to one decimal place (`Math.round(x*10)/10`, half toward
    positive infinity), defined as 0 when `uniqueUsers` is 0. -/
theorem card_stats_correct (s : Store) (now : Nat) :
    (cardAnalytics s now).length = s.cards.length ∧
    ∀ i (hc : i < s.cards.length) (hi : i < (cardAnalytics s now).length),
      ((cardAnalytics s now).get ⟨i, hi⟩).cardId = (s.cards.get ⟨i, hc⟩).id ∧
      ((cardAnalytics s now).get ⟨i, hi⟩).totalCheckIns =
        (s.checkIns.filter
          (fun ci => ci.cardId == (s.cards.get ⟨i, hc⟩).id)).length ∧
      ((cardAnalytics s now).get ⟨i, hi⟩).uniqueUsers =
        ((s.checkIns.filter
          (fun ci => ci.cardId == (s.cards.get ⟨i, hc⟩).id)).map
            (fun ci => ci.userId)).toFinset.card ∧
      ((cardAnalytics s now).get ⟨i, hi⟩).avgCheckInsPerUser =
        (if ((cardAnalytics s now).get ⟨i, hi⟩).uniqueUsers = 0 then 0
         else (round ((((cardAnalytics s now).get ⟨i, hi⟩).totalCheckIns : ℚ) /
            (((cardAnalytics s now).get ⟨i, hi⟩).uniqueUsers : ℚ) * 10) : ℚ) / 10) := by
  constructor
  · simp [cardAnalytics, getAllCards]
  · intro i hc hi
    have hget : (cardAnalytics s now).get ⟨i, hi⟩ =
        (fun card =>
          let cardCheckIns :=
            (getAllCheckIns s).filter (fun ci => ci.cardId == card.id)
          let uniqueUsers := (cardCheckIns.map (fun ci => ci.userId)).dedup.length
          let avg : ℚ :=
            if uniqueUsers > 0 then (cardCheckIns.length : ℚ) / (uniqueUsers : ℚ)
            else 0
          let sevenDaysAgo := now - 7 * msPerDay
          ({ cardId := card.id,
             totalCheckIns := cardCheckIns.length,
             uniqueUsers := uniqueUsers,
             avgCheckInsPerUser := (round (avg * 10) : ℚ) / 10,
             last7Days :=
               (cardCheckIns.filter
                 (fun ci => decide (sevenDaysAgo ≤ ci.timestamp))).length,
             totalPointsEarned :=
               (cardCheckIns.map (fun ci => ci.pointsEarned)).sum } : CardStats))
          (s.cards.get ⟨i, hc⟩) := by
      unfold cardAnalytics
      exact List.get_map _
    rw [hget]
    refine ⟨rfl, rfl, (List.card_toFinset _).symm, ?_⟩
    simp only [getAllCheckIns, getAllCards]
    generalize ((s.checkIns.filter
        (fun ci => ci.cardId == (s.cards.get ⟨i, hc⟩).id)).map
          (fun ci => ci.userId)).dedup.length = n
    generalize (s.checkIns.filter
        (fun ci => ci.cardId == (s.cards.get ⟨i, hc⟩).id)).length = tc
    by_cases hz : n = 0
    · simp [hz]
    · have hpos : 0 < n := Nat.pos_of_ne_zero hz
      rw [if_pos hpos, if_neg hz]

/-- Witness for C7: the per-card statistics of the store with one
    check-in on card-1, at index 0. -/
theorem card_stats_correct_witness :
    (cardAnalytics lateClockStore 10).length = lateClockStore.cards.length ∧
    ((cardAnalytics lateClockStore 10).get ⟨0, by decide⟩).totalCheckIns =
      (lateClockStore.checkIns.filter
        (fun ci => ci.cardId == (lateClockStore.cards.get ⟨0, by decide⟩).id)).length ∧
    ((cardAnalytics lateClockStore 10).get ⟨0, by decide⟩).uniqueUsers =
      ((lateClockStore.checkIns.filter
        (fun ci => ci.cardId == (lateClockStore.cards.get ⟨0, by decide⟩).id)).map
          (fun ci => ci.userId)).toFinset.card :=
  ⟨(card_stats_correct lateClockStore 10).1,
   ((card_stats_correct lateClockStore 10).2 0 (by decide) (by decide)).2.1,
   ((card_stats_correct lateClockStore 10).2 0 (by decide) (by decide)).2.2.1⟩

theorem msPerDay_pos : 0 < msPerDay := by decide

/-- C4 (amended, for the overview's `dailyCheckIns` series): when the
    range start does not underflow the epoch, the series has exactly
    `days + 1` entries — one per calendar day of the inclusive range,
    in order and with no gaps — and the entry of day `k` carries the
    number of check-in events whose timestamp falls on that calendar
    day (0 when there are none). -/
theorem overview_daily_complete (s : Store) (now days : Nat)
    (h : days * msPerDay ≤ now) :
    (overviewDailyCheckIns s now days).length = days + 1 ∧
    ∀ k, k < days + 1 →
      ∀ hk2 : k < (overviewDailyCheckIns s now days).length,
      (overviewDailyCheckIns s now days).get ⟨k, hk2⟩ =
        (now / msPerDay - days + k,
         (s.checkIns.filter (fun ci =>
            formatDate ci.timestamp == now / msPerDay - days + k)).length) := by
  constructor
  · simp only [overviewDailyCheckIns, getDateRange, getAllCheckIns]
    rw [List.length_map, List.length_range]
    simp only [msPerDay] at h ⊢
    omega
  · intro k hk hk2
    simp only [overviewDailyCheckIns, getDateRange, getAllCheckIns] at hk2 ⊢
    rw [List.get_map, List.get_range]
    have hday : formatDate (((now - days * msPerDay) / msPerDay) * msPerDay +
        k * msPerDay) = now / msPerDay - days + k := by
      unfold formatDate
      simp only [msPerDay] at h ⊢
      omega
    rw [hday]
    congr 1
    rw [List.filter_filter]
    refine congrArg List.length (List.filter_congr ?_)
    intro ci hmem
    by_cases hb : (formatDate ci.timestamp == now / msPerDay - days + k) = true
    · rw [hb, Bool.true_and]
      have hts : ci.timestamp / msPerDay = now / msPerDay - days + k := by
        simpa [formatDate] using hb
      apply decide_eq_true
      refine ⟨?_, ?_⟩ <;>
        · simp only [msPerDay] at hts h hk ⊢
          omega
    · simp only [Bool.not_eq_true] at hb
      rw [hb, Bool.false_and]

/-- Witness for C4 (amended): with `now` at the start of day 1 and a
    1-day range, the overview series has 2 entries, and entry 0 is day 0
    with count 0. -/
theorem overview_daily_complete_witness :
    (overviewDailyCheckIns (initialStore 0) msPerDay 1).length = 1 + 1 ∧
    (overviewDailyCheckIns (initialStore 0) msPerDay 1).get ⟨0, by decide⟩ =
      (0, 0) :=
  ⟨(overview_daily_complete (initialStore 0) msPerDay 1 (by decide)).1,
   (overview_daily_complete (initialStore 0) msPerDay 1 (by decide)).2 0
     (by decide) (by decide)⟩

/-- Counterexample to C4 as stated: over the same 2-day range (so the
    claim demands `end.date - start.date + 1 = 2` entries, with
    zero-count days present), the GET /analytics/daily endpoint returns
    no entry at all when no check-in falls in the range — days without
    events are simply missing from its output. -/
theorem daily_trend_omits_empty_days :
    (dailyTrend (initialStore 0) msPerDay 1).length = 0 ∧ (0 : Nat) ≠ 1 + 1 := by
  refine ⟨?_, by decide⟩
  simp [dailyTrend, getCheckInsInDateRange, initialStore, getDateRange]

/-- C9 (amended): the leaderboard and topUsers contain only accounts of
    role 'user', and the user totals computed from the users map
    (overview `totalUsers`, user-activity `totalUsers`) count only
    role-'user' accounts; but the counts derived from the event log
    (overview `activeUsers`, user-activity `usersWithCheckIns`,
    `activeLastWeek`, `activeLastMonth`) count distinct userIds of
    events with no role filter, so they can include admin or business
    accounts that have check-ins. -/
theorem analytics_role_scope (s : Store) (limit now : Nat) :
    (∀ e ∈ leaderboard s limit,
      ∃ u, u ∈ s.users ∧ u.id = e.userId ∧ u.role = Role.user) ∧
    (∀ e ∈ overviewTopUsers s,
      ∃ u, u ∈ s.users ∧ u.id = e.userId ∧ u.role = Role.user) ∧
    overviewTotalUsers s = s.users.countP (fun u => decide (u.role = Role.user)) ∧
    (userActivity s now).totalUsers =
      s.users.countP (fun u => decide (u.role = Role.user)) ∧
    (userActivity s now).usersWithCheckIns =
      (s.checkIns.map (fun ci => ci.userId)).toFinset.card ∧
    overviewActiveUsers s now =
      ((s.checkIns.filter
        (fun ci => decide (now - 30 * msPerDay ≤ ci.timestamp))).map
          (fun ci => ci.userId)).toFinset.card := by
  have hlb : ∀ m, ∀ e ∈ leaderboard s m,
      ∃ u, u ∈ s.users ∧ u.id = e.userId ∧ u.role = Role.user := by
    intro m e he
    unfold leaderboard at he
    rw [List.mapIdx_eq_enum_map] at he
    obtain ⟨⟨i, u⟩, hmem, hfe⟩ := List.mem_map.mp he
    have hu : u ∈ leaderboardUsers s m := by
      rw [(List.mem_enumFrom hmem).2.2]
      exact List.getElem_mem _
    unfold leaderboardUsers at hu
    have hu2 := List.take_subset _ _ hu
    rw [List.mem_mergeSort] at hu2
    have hu3 := List.mem_filter.mp hu2
    refine ⟨u, hu3.1, ?_, by simpa using hu3.2⟩
    rw [← hfe]
    rfl
  refine ⟨hlb limit, hlb 10, ?_, ?_, ?_, ?_⟩
  · exact (List.countP_eq_length_filter _ s.users).symm
  · exact (List.countP_eq_length_filter _ s.users).symm
  · exact (List.card_toFinset _).symm
  · exact (List.card_toFinset _).symm

/-- The single account of the admin-trace store after its check-in. -/
def adminUser : User :=
  { id := "a1", email := "boss@example.com", name := "Boss", role := .admin,
    points := 10, createdAt := 1, updatedAt := 3 }

/-- Counterexample to C9 as stated: in a store whose only account has
    role 'admin' (and one check-in by it), the user-activity metric
    `usersWithCheckIns` and the overview metric `activeUsers` are both
    1 — the admin account is counted in these user counts. -/
theorem admin_counted_in_activity :
    (applyOps (initialStore 0) adminTrace).users.map (fun u => u.role) =
      [Role.admin] ∧
    (userActivity (applyOps (initialStore 0) adminTrace) 5).usersWithCheckIns = 1 ∧
    overviewActiveUsers (applyOps (initialStore 0) adminTrace) 5 = 1 := by
  decide

/-- Witness for C9 (amended): the role-'user' account behind the only
    leaderboard entry of the one-user store, and the event-log-derived
    count at the same store. -/
theorem analytics_role_scope_witness :
    (∃ u, u ∈ lateClockStore.users ∧
      u.id = (LeaderboardEntry.mk "u1" "Alice" "alice@example.com" 10 1).userId ∧
      u.role = Role.user) ∧
    (userActivity lateClockStore 5).usersWithCheckIns =
      (lateClockStore.checkIns.map (fun ci => ci.userId)).toFinset.card := by
  have husers : lateClockStore.users =
      [{ id := "u1", email := "alice@example.com", name := "Alice",
         role := .user, points := 10, createdAt := 0, updatedAt := 0 }] := by
    decide
  have hmem : LeaderboardEntry.mk "u1" "Alice" "alice@example.com" 10 1 ∈
      leaderboard lateClockStore 10 := by
    simp [leaderboard, leaderboardUsers, getAllUsers, husers,
      List.mapIdx_eq_enum_map]
  exact ⟨(analytics_role_scope lateClockStore 10 5).1 _ hmem,
    (analytics_role_scope lateClockStore 10 5).2.2.2.2.1⟩

theorem pointsDesc_trans (a b c : User) :
    pointsDesc a b → pointsDesc b c → pointsDesc a c := by
  simp only [pointsDesc, decide_eq_true_eq]
  exact fun hab hbc => Nat.le_trans hbc hab

theorem pointsDesc_total (a b : User) : pointsDesc a b || pointsDesc b a := by
  simp only [pointsDesc]
  rcases Nat.le_total a.points b.points with h | h <;> simp [h]

/-- C3 (amended): the leaderboard of limit n returns at most n entries;
    entries are sorted by points descending; among equal points the
    order of the users list (account-creation order, assumed sorted by
    `createdAt` as registration appends with a monotone clock) is kept —
    the sort is stable, so the tie-break is deterministic and never
    depends on hash/map iteration; and the rank of the entry at
    position i is i + 1 — position-based sequential ranks, not dense
    ranks (equal points receive distinct consecutive ranks).
    Determinism of repeated calls on the same snapshot is definitional
    in this pure embedding. -/
theorem leaderboard_sorted_stable_ranked (s : Store) (limit : Nat)
    (hc : s.users.Pairwise (fun a b => a.createdAt ≤ b.createdAt)) :
    (leaderboard s limit).length ≤ limit ∧
    (∀ i, ∀ hi : i < (leaderboard s limit).length,
      ((leaderboard s limit).get ⟨i, hi⟩).rank = i + 1) ∧
    (∀ i, ∀ hi : i < (leaderboard s limit).length,
      ∀ hu : i < (leaderboardUsers s limit).length,
      ((leaderboard s limit).get ⟨i, hi⟩).points =
        ((leaderboardUsers s limit).get ⟨i, hu⟩).points) ∧
    (leaderboardUsers s limit).Pairwise (fun a b => b.points ≤ a.points) ∧
    (leaderboardUsers s limit).Pairwise
      (fun a b => a.points = b.points → a.createdAt ≤ b.createdAt) := by
  have hlen0 : (leaderboard s limit).length = (leaderboardUsers s limit).length := by
    unfold leaderboard
    exact List.length_mapIdx
  refine ⟨?_, ?_, ?_, ?_, ?_⟩
  · rw [hlen0]
    unfold leaderboardUsers
    exact List.length_take_le _ _
  · intro i hi
    have hu : i < (leaderboardUsers s limit).length := hlen0 ▸ hi
    unfold leaderboard
    rw [List.get_mapIdx _ _ _ hu]
  · intro i hi hu
    unfold leaderboard
    rw [List.get_mapIdx _ _ _ hu]
  · unfold leaderboardUsers
    refine List.Pairwise.sublist (List.take_sublist _ _) ?_
    have hs := List.sorted_mergeSort pointsDesc_trans pointsDesc_total
      ((getAllUsers s).filter (fun u => decide (u.role = Role.user)))
    exact hs.imp (fun h => by simpa [pointsDesc] using h)
  · unfold leaderboardUsers
    refine List.Pairwise.sublist (List.take_sublist _ _) ?_
    have hcf : ((getAllUsers s).filter
        (fun u => decide (u.role = Role.user))).Pairwise
        (fun a b => a.createdAt ≤ b.createdAt) := hc.filter _
    have hE := List.sorted_mergeSort (List.enumLE_trans pointsDesc_trans)
      (List.enumLE_total pointsDesc_total)
      (((getAllUsers s).filter (fun u => decide (u.role = Role.user))).enum)
    have hmap : (List.mergeSort
        (((getAllUsers s).filter (fun u => decide (u.role = Role.user))).enum)
        (List.enumLE pointsDesc)).map (fun x => x.2) =
        List.mergeSort
          ((getAllUsers s).filter (fun u => decide (u.role = Role.user)))
          pointsDesc :=
      List.mergeSort_enum
    rw [← hmap, List.pairwise_map]
    refine hE.imp_of_mem ?_
    intro x y hx hy hr hpts
    obtain ⟨i, a⟩ := x
    obtain ⟨j, b⟩ := y
    simp only at hpts ⊢
    have hab1 : pointsDesc a b = true := by
      simp [pointsDesc, hpts]
    have hab2 : pointsDesc b a = true := by
      simp [pointsDesc, hpts]
    have hij : i ≤ j := by
      have hr2 := hr
      simp only [List.enumLE, hab1, hab2, if_true] at hr2
      simpa using hr2
    have hx2 := List.mem_enumFrom (List.mem_mergeSort.mp hx)
    have hy2 := List.mem_enumFrom (List.mem_mergeSort.mp hy)
    obtain ⟨-, hxlt, hxe⟩ := hx2
    obtain ⟨-, hylt, hye⟩ := hy2
    simp only [Nat.sub_zero, Nat.zero_add] at hxlt hylt hxe hye
    rcases Nat.lt_or_ge i j with hlt | hge
    · have := (List.pairwise_iff_getElem.mp hcf) i j hxlt hylt hlt
      rw [hxe, hye]
      exact this
    · have hij2 : i = j := Nat.le_antisymm hij hge
      subst hij2
      rw [hxe, hye]

/-- Counterexample to C3 as stated: two role-'user' accounts with equal
    points receive ranks 1 and 2 — `rank: index + 1` is position-based,
    not a dense rank, so equal points do not receive equal rank. -/
theorem leaderboard_ranks_not_dense :
    (leaderboard tieStore 10).map (fun e => (e.points, e.rank)) =
      [(0, 1), (0, 2)] ∧
    (1 : Nat) ≠ 2 := by
  refine ⟨?_, by decide⟩
  have husers : tieStore.users =
      [{ id := "u1", email := "a@x", name := "A", role := .user, points := 0,
         createdAt := 1, updatedAt := 1 },
       { id := "u2", email := "b@x", name := "B", role := .user, points := 0,
         createdAt := 2, updatedAt := 2 }] := by decide
  simp [leaderboard, leaderboardUsers, getAllUsers, husers, pointsDesc,
    List.mergeSort, List.splitInTwo, List.splitAt, List.splitAt.go, List.merge,
    List.mapIdx_eq_enum_map, List.enum, List.enumFrom.eq_def, Function.uncurry_def]

/-- Witness for C3 (amended): the tie store, whose users list is sorted
    by creation time. -/
theorem leaderboard_sorted_stable_ranked_witness :
    (leaderboard tieStore 10).length ≤ 10 ∧
    (leaderboardUsers tieStore 10).Pairwise (fun a b => b.points ≤ a.points) ∧
    (leaderboardUsers tieStore 10).Pairwise
      (fun a b => a.points = b.points → a.createdAt ≤ b.createdAt) :=
  ⟨(leaderboard_sorted_stable_ranked tieStore 10 (by decide)).1,
   (leaderboard_sorted_stable_ranked tieStore 10 (by decide)).2.2.2.1,
   (leaderboard_sorted_stable_ranked tieStore 10 (by decide)).2.2.2.2⟩

end SBD
